import Mathlib

/-!
Verification development for the volleyball live-match synchronization
application (relay server `server.ts`, sync transport client
`services/cloud.ts`, and the match state handlers of the two App
implementations).  JavaScript runtime values exchanged over the wire are
modelled by the inductive `JSValue`; JavaScript numbers that the handlers
use as integer counters are modelled by `Int`; fallible JavaScript
operations (`JSON.parse`, `JSON.stringify` on non-serializable data)
are modelled by `Except`/`Option` results.
-/

/-- A JavaScript runtime value as far as the sync layer can observe it.
`jfun` stands for a function value (JSON.stringify turns it into
`undefined`, dropping it from objects and replacing it by `null` in
arrays); `jbig` stands for a BigInt value (JSON.stringify throws a
TypeError on it). -/
inductive JSValue where
  | jnull
  | jbool (b : Bool)
  | jnum (n : Int)
  | jstr (s : String)
  | jarr (elems : List JSValue)
  | jobj (fields : List (String × JSValue))
  | jfun
  | jbig

/-- JavaScript truthiness of a value (`null`, `false`, `0` and `""` are
falsy; arrays and objects are always truthy). -/
def truthy : JSValue → Bool
  | .jnull => false
  | .jbool b => b
  | .jnum n => n != 0
  | .jstr s => s != ""
  | _ => true

mutual

/-- Model of `JSON.stringify` on a `JSValue`, keeping the result as a structured
value rather than as text.  `Except.error` models the TypeError thrown on
a BigInt; `Except.ok none` models a `undefined` result (stringifying a
bare function value). -/
def jsonStringify : JSValue → Except Unit (Option JSValue)
  | .jnull => .ok (some .jnull)
  | .jbool b => .ok (some (.jbool b))
  | .jnum n => .ok (some (.jnum n))
  | .jstr s => .ok (some (.jstr s))
  | .jfun => .ok none
  | .jbig => .error ()
  | .jarr elems => do
      let ys ← stringifyElems elems
      pure (some (.jarr ys))
  | .jobj fields => do
      let fs ← stringifyFields fields
      pure (some (.jobj fs))

/-- Array elements under `JSON.stringify`: a non-serializable element
becomes `null`, a BigInt element makes the whole call throw. -/
def stringifyElems : List JSValue → Except Unit (List JSValue)
  | [] => .ok []
  | x :: xs => do
      let v ← jsonStringify x
      let rest ← stringifyElems xs
      pure (v.getD .jnull :: rest)

/-- Object fields under `JSON.stringify`: a field whose value
stringifies to `undefined` is dropped, a BigInt field value makes the
whole call throw. -/
def stringifyFields : List (String × JSValue) → Except Unit (List (String × JSValue))
  | [] => .ok []
  | (k, x) :: xs => do
      let v ← jsonStringify x
      let rest ← stringifyFields xs
      match v with
      | none => pure rest
      | some w => pure ((k, w) :: rest)

end

/-- The Firebase branch of `pushData` computes
`JSON.parse(JSON.stringify(data))`; `none` when that round trip throws
(either stringify throws, or it returns `undefined` and `JSON.parse`
then throws a SyntaxError). -/
def cleanData (v : JSValue) : Option JSValue :=
  match jsonStringify v with
  | .error _ => none
  | .ok none => none
  | .ok (some w) => some w

/-! ## Relay server (`server.ts`) -/

/-- The relay's in-memory state: a JavaScript object mapping path names
to last-known values, represented as an association list (insertion
order preserved, as `Object.keys` iteration order is). -/
def RelayState := List (String × JSValue)

/-- Read of `state[path]`. -/
def lookupPath (s : RelayState) (p : String) : Option JSValue :=
  match s with
  | [] => none
  | (k, v) :: rest => if k = p then some v else lookupPath rest p

/-- Assignment `state[path] = data` on a JavaScript object: replace the value when
the key is present, otherwise add the key. -/
def setPath (s : RelayState) (p : String) (v : JSValue) : RelayState :=
  match s with
  | [] => [(p, v)]
  | (k, w) :: rest => if k = p then (k, v) :: rest else (k, w) :: setPath rest p v

/-- The server's initial state (`server.ts` lines 17-22). -/
def initialState : RelayState :=
  [("users", .jarr []), ("teams", .jarr []), ("tournaments", .jarr []),
   ("liveMatch", .jnull)]

/-- A WebSocket `readyState`. -/
inductive ReadyState where
  | connecting
  | opened
  | closing
  | closed
  deriving Repr, DecidableEq

/-- A server-side view of one client connection: its identity (object
identity of the `ws` handle) and its current ready state. -/
structure Conn where
  id : Nat
  readyState : ReadyState
  deriving Repr, DecidableEq

/-- A successfully parsed incoming message, after the `parsed.type`
dispatch of the server's message handler: an `UPDATE`, a
`SYNC_REQUEST`, or any other JSON value (which the handler ignores). -/
inductive ParsedMsg where
  | update (path : String) (data : JSValue)
  | syncRequest
  | other

/-- A frame the server sends to a client. -/
inductive OutFrame where
  | initF (data : RelayState)
  | updateF (path : String) (data : JSValue)

/-- Result of the server processing one incoming message: the new state,
the frames sent (paired with the receiving connection's id), which
connections were closed (the handler never closes any), and whether the
catch block logged an error. -/
structure ServerStep where
  state : RelayState
  sends : List (Nat × OutFrame)
  closes : List Nat
  loggedError : Bool

/-- The `ws.on('message')` handler of `server.ts` (lines 30-51), for a
message arriving on connection `sender` while `clients` is the current
`wss.clients` set.  The incoming message is given as the result of
`JSON.parse`: `none` models an unparseable message (the `catch` block
runs: log, no state change, no sends, connection kept open). -/
def serverHandleMessage (state : RelayState) (clients : List Conn) (sender : Nat)
    (msg : Option ParsedMsg) : ServerStep :=
  match msg with
  | none => { state := state, sends := [], closes := [], loggedError := true }
  | some (.update path data) =>
      { state := setPath state path data,
        sends := (clients.filter
            (fun c => c.id ≠ sender ∧ c.readyState = .opened)).map
          (fun c => (c.id, OutFrame.updateF path data)),
        closes := [],
        loggedError := false }
  | some .syncRequest =>
      { state := state, sends := [(sender, OutFrame.initF state)], closes := [],
        loggedError := false }
  | some .other =>
      { state := state, sends := [], closes := [], loggedError := false }

/-- The `wss.on('connection')` handler (lines 24-28): the fresh
connection is immediately sent an `INIT` frame holding the entire
current state. -/
def serverOnConnection (state : RelayState) : OutFrame :=
  OutFrame.initF state

/-! ## Sync transport client (`services/cloud.ts`) -/

/-- The client's per-path listener registry
(`const listeners: { [key: string]: ((data: any) => void)[] } = {}`).
Callback functions are identified by their object identity, modelled as
`Nat`. -/
def Listeners := List (String × List Nat)

/-- Read of `listeners[path]` (`undefined` when the key is absent). -/
def lookupListeners (ls : Listeners) (p : String) : Option (List Nat) :=
  match ls with
  | [] => none
  | (k, cbs) :: rest => if k = p then some cbs else lookupListeners rest p

/-- Read of `listeners[path]`, with an absent entry read as the empty list. -/
def getListeners (ls : Listeners) (p : String) : List Nat :=
  (lookupListeners ls p).getD []

/-- Assignment `listeners[path] = l` on the registry object. -/
def setListenerList (ls : Listeners) (p : String) (l : List Nat) : Listeners :=
  match ls with
  | [] => [(p, l)]
  | (k, cbs) :: rest =>
      if k = p then (k, l) :: rest else (k, cbs) :: setListenerList rest p l

/-- The registration step of `syncData` (cloud.ts lines 97-99):
`if (!listeners[path]) listeners[path] = []; listeners[path].push(onData)`. -/
def registerListener (ls : Listeners) (p : String) (cb : Nat) : Listeners :=
  setListenerList ls p (getListeners ls p ++ [cb])

/-- The unsubscribe function returned by the WebSocket branch of
`syncData` (cloud.ts lines 116-118):
`listeners[path] = listeners[path].filter(cb => cb !== onData)`. -/
def unsubscribeWS (ls : Listeners) (p : String) (cb : Nat) : Listeners :=
  setListenerList ls p ((getListeners ls p).filter (fun c => c ≠ cb))

/-- Client-side state when the Firebase backend is active: the (still
populated) listener registry plus the set of live `onValue`
subscriptions, each identified by a fresh token together with its path
and callback. -/
structure FBState where
  listeners : Listeners
  subs : List (Nat × String × Nat)

/-- Model of `syncData` on the Firebase backend (cloud.ts lines 96-109): the
callback is pushed onto the per-path listener list, and an `onValue`
subscription is opened; the function returned to the caller is
Firebase's `unsubscribe` for that subscription. -/
def syncDataFB (st : FBState) (p : String) (cb : Nat) (token : Nat) : FBState :=
  { listeners := registerListener st.listeners p cb,
    subs := st.subs ++ [(token, p, cb)] }

/-- The unsubscribe function returned by the Firebase branch of
`syncData`: it cancels that `onValue` subscription and touches nothing
else (in particular it does not remove the callback from the listener
registry). -/
def unsubscribeFB (st : FBState) (token : Nat) : FBState :=
  { listeners := st.listeners,
    subs := st.subs.filter (fun s => s.1 ≠ token) }

/-- A message received by the client socket, as the result of
`JSON.parse` plus the `message.type` dispatch; `none` models an
unparseable message (the catch block runs: log and ignore). -/
inductive ClientMsg where
  | initMsg (data : RelayState)
  | updateMsg (path : String) (data : JSValue)
  | otherMsg

/-- The `socket.onmessage` handler (cloud.ts lines 64-83), returning the
sequence of callback invocations `(callback, value)` it performs.  An
`INIT` distributes each key of the snapshot to that key's listeners; an
`UPDATE` invokes only the listeners of its path; anything else (or a
parse failure) invokes nothing. -/
def clientOnMessage (ls : Listeners) (msg : Option ClientMsg) : List (Nat × JSValue) :=
  match msg with
  | none => []
  | some (.initMsg data) =>
      data.flatMap (fun kv =>
        match lookupListeners ls kv.1 with
        | some cbs => cbs.map (fun cb => (cb, kv.2))
        | none => [])
  | some (.updateMsg path d) =>
      match lookupListeners ls path with
      | some cbs => cbs.map (fun cb => (cb, d))
      | none => []
  | some .otherMsg => []

/-- An effect performed by `pushData`. -/
inductive PushEffect where
  | firebaseSet (path : String) (value : JSValue)
  | logSyncError
  | sendNow (frame : JSValue)
  | scheduleRetry (delayMs : Nat)

/-- The Firebase branch of `pushData` (cloud.ts lines 122-132): round
trip the value through JSON; on success write it, on failure log
"Sync Error" and return normally. -/
def pushDataFirebase (path : String) (data : JSValue) : Except Unit (List PushEffect) :=
  match cleanData data with
  | some c => .ok [.firebaseSet path c]
  | none => .ok [.logSyncError]

/-- The `UPDATE` frame built by the WebSocket branch of `pushData`:
`{ type: 'UPDATE', path, data }`. -/
def updateFrame (path : String) (data : JSValue) : JSValue :=
  .jobj [("type", .jstr "UPDATE"), ("path", .jstr path), ("data", data)]

/-- The WebSocket branch of `pushData` (cloud.ts lines 134-144).
`sockNow` is the socket's state at call time, `sockAtRetry` its state
when the 1000 ms retry timer fires.  If the socket is open the frame is
serialized and sent at once — with no try/catch, so a `JSON.stringify`
failure propagates to the caller (`Except.error`).  If a socket object
exists but is not open, one retry is scheduled after 1000 ms and the
frame is sent then iff the socket is open at that moment (a stringify
failure inside the timer callback cannot reach the caller).  With no
socket object, nothing happens. -/
def pushDataWS (sockNow sockAtRetry : Option ReadyState) (path : String)
    (data : JSValue) : Except Unit (List PushEffect) :=
  match sockNow with
  | some .opened =>
      match jsonStringify (updateFrame path data) with
      | .error _ => .error ()
      | .ok none => .ok []
      | .ok (some f) => .ok [.sendNow f]
  | some _ =>
      .ok (.scheduleRetry 1000 ::
        (match sockAtRetry, jsonStringify (updateFrame path data) with
         | some .opened, .ok (some f) => [.sendNow f]
         | _, _ => []))
  | none => .ok []

/-- A frame the client sends to the relay. -/
inductive ClientFrame where
  | syncReq
  | updateReq (path : String) (data : JSValue)

/-- An action the client's socket lifecycle handlers perform. -/
inductive ClientAction where
  | logMsg
  | sendFrame (f : ClientFrame)
  | scheduleReconnect (delayMs : Nat)

/-- Actions of `socket.onopen` (cloud.ts lines 59-62): log, then immediately send
`{ type: 'SYNC_REQUEST' }`. -/
def onOpenActions : List ClientAction :=
  [.logMsg, .sendFrame .syncReq]

/-- Actions of `socket.onclose` (cloud.ts lines 85-89): log, then schedule exactly
one `connectSocket` call after a fixed 3000 ms delay. -/
def onCloseActions : List ClientAction :=
  [.logMsg, .scheduleReconnect 3000]

/-- A socket lifecycle event observed by the client. -/
inductive SocketEvent where
  | seOpen
  | seClose
  deriving Repr, DecidableEq

/-- The actions the lifecycle handlers perform on one event.  Every new
socket created by `connectSocket` installs the same handlers, so the
same action lists apply to every (re)connection. -/
def socketEventActions : SocketEvent → List ClientAction
  | .seOpen => onOpenActions
  | .seClose => onCloseActions

/-- All actions performed along a sequence of socket lifecycle events. -/
def traceActions (evs : List SocketEvent) : List ClientAction :=
  evs.flatMap socketEventActions

/-- Whether an action schedules a reconnect. -/
def isReconnectAction : ClientAction → Bool
  | .scheduleReconnect _ => true
  | _ => false

/-- Whether an action sends a frame. -/
def isSendAction : ClientAction → Bool
  | .sendFrame _ => true
  | _ => false

/-! ## Match domain model (`src/App.tsx` and the sibling implementation) -/

/-- A player, reduced to the fields the match handlers consult
(identity and jersey number; profile/stats fields do not influence the
handlers under study). -/
structure Player where
  id : String
  name : String
  number : Int
  deriving Repr, DecidableEq

/-- One entry of a set's point history (`PointLog`). -/
structure PointLog where
  teamId : String
  playerId : Option String
  logType : String
  scoreSnapshot : String
  deriving Repr, DecidableEq

/-- One set of a match (`MatchSet`). -/
structure MatchSet where
  scoreA : Int
  scoreB : Int
  history : List PointLog
  durationMinutes : Int
  deriving Repr, DecidableEq

/-- Match configuration (`MatchConfig`). -/
structure MatchConfig where
  maxSets : Nat
  pointsPerSet : Int
  tieBreakPoints : Int
  deriving Repr, DecidableEq

/-- A pending team request (`RequestItem`). -/
structure RequestItem where
  reqId : String
  teamId : String
  reqType : String
  reqStatus : String
  deriving Repr, DecidableEq

/-- The live match document (`LiveMatchState`). -/
structure LiveMatchState where
  matchId : String
  config : MatchConfig
  status : String
  currentSet : Nat
  sets : List MatchSet
  rotationA : List Player
  rotationB : List Player
  benchA : List Player
  benchB : List Player
  servingTeamId : String
  scoreA : Int
  scoreB : Int
  timeoutsA : Int
  timeoutsB : Int
  substitutionsA : Int
  substitutionsB : Int
  requests : List RequestItem
  deriving Repr, DecidableEq

/-- A team, reduced to the fields the match handlers consult. -/
structure Team where
  id : String
  name : String
  players : List Player
  deriving Repr, DecidableEq

/-- The literal `{ scoreA: 0, scoreB: 0, history: [], durationMinutes: 0 }`. -/
def emptySet : MatchSet :=
  { scoreA := 0, scoreB := 0, history := [], durationMinutes := 0 }

/-- JavaScript array element assignment `l[i] = v`: in-place replacement
when `i` is in bounds, extension otherwise (the handlers only ever
assign at `currentSet - 1`, which the invariants below keep in bounds;
holes of an extension are read back through the code's `|| default`
guard, so they are modelled by `emptySet`). -/
def jsArraySet (l : List MatchSet) (i : Nat) (v : MatchSet) : List MatchSet :=
  if i < l.length then l.set i v
  else l ++ List.replicate (i - l.length) emptySet ++ [v]

/-- The score snapshot string, a dash between the two scores. -/
def scoreSnap (a b : Int) : String :=
  toString a ++ "-" ++ toString b

/-- Model of `rotateTeam` of the sibling implementation: shift the first player
off and push it to the back. -/
def rotateTeam (players : List Player) : List Player :=
  match players with
  | [] => []
  | first :: rest => rest ++ [first]

/-- The rotation of `handlePoint` in `src/App.tsx`: pop the last player
and unshift it to the front. -/
def rotatePopUnshift (l : List Player) : List Player :=
  match l.getLast? with
  | none => l
  | some p => p :: l.dropLast

/-- Intermediate result of the scoring branch of the sibling
implementation's `handlePoint`. -/
structure ScoreStep where
  newScoreA : Int
  newScoreB : Int
  newRotationA : List Player
  newRotationB : List Player
  newServingTeam : String
  pointAwarded : Bool

/-- Model of `handlePoint` of the sibling implementation (part_001 lines
623-728), as the pure state updater passed to `updateLiveMatch`.
`teamAId`/`teamBId` come from the fixture of the active tournament. -/
def handlePoint001 (teamAId teamBId teamId ptypeStr : String)
    (playerId : Option String) (prev : LiveMatchState) : LiveMatchState :=
  if prev.status = "finished" then prev else
  let isTeamAScoring := teamId = teamAId
  let newStatus :=
    if prev.status = "warmup" ∨ prev.status = "paused" then "playing" else prev.status
  let step : ScoreStep :=
    if ptypeStr = "yellow_card" then
      { newScoreA := prev.scoreA, newScoreB := prev.scoreB,
        newRotationA := prev.rotationA, newRotationB := prev.rotationB,
        newServingTeam := prev.servingTeamId, pointAwarded := false }
    else if ptypeStr = "red_card" then
      if teamId = teamAId then
        if prev.servingTeamId ≠ teamBId then
          { newScoreA := prev.scoreA, newScoreB := prev.scoreB + 1,
            newRotationA := prev.rotationA, newRotationB := rotateTeam prev.rotationB,
            newServingTeam := teamBId, pointAwarded := true }
        else
          { newScoreA := prev.scoreA, newScoreB := prev.scoreB + 1,
            newRotationA := prev.rotationA, newRotationB := prev.rotationB,
            newServingTeam := prev.servingTeamId, pointAwarded := true }
      else
        if prev.servingTeamId ≠ teamAId then
          { newScoreA := prev.scoreA + 1, newScoreB := prev.scoreB,
            newRotationA := rotateTeam prev.rotationA, newRotationB := prev.rotationB,
            newServingTeam := teamAId, pointAwarded := true }
        else
          { newScoreA := prev.scoreA + 1, newScoreB := prev.scoreB,
            newRotationA := prev.rotationA, newRotationB := prev.rotationB,
            newServingTeam := prev.servingTeamId, pointAwarded := true }
    else
      if isTeamAScoring then
        if prev.servingTeamId ≠ teamAId then
          { newScoreA := prev.scoreA + 1, newScoreB := prev.scoreB,
            newRotationA := rotateTeam prev.rotationA, newRotationB := prev.rotationB,
            newServingTeam := teamAId, pointAwarded := true }
        else
          { newScoreA := prev.scoreA + 1, newScoreB := prev.scoreB,
            newRotationA := prev.rotationA, newRotationB := prev.rotationB,
            newServingTeam := prev.servingTeamId, pointAwarded := true }
      else
        if prev.servingTeamId ≠ teamBId then
          { newScoreA := prev.scoreA, newScoreB := prev.scoreB + 1,
            newRotationA := prev.rotationA, newRotationB := rotateTeam prev.rotationB,
            newServingTeam := teamBId, pointAwarded := true }
        else
          { newScoreA := prev.scoreA, newScoreB := prev.scoreB + 1,
            newRotationA := prev.rotationA, newRotationB := prev.rotationB,
            newServingTeam := prev.servingTeamId, pointAwarded := true }
  let isTieBreak := prev.currentSet = prev.config.maxSets
  let pointsToWin := if isTieBreak then prev.config.tieBreakPoints else prev.config.pointsPerSet
  let setFinished :=
    (pointsToWin ≤ step.newScoreA ∨ pointsToWin ≤ step.newScoreB) ∧
      2 ≤ |step.newScoreA - step.newScoreB|
  let setIndex := prev.currentSet - 1
  let currentSetData := prev.sets.getD setIndex emptySet
  let currentHistory := currentSetData.history
  let finishedSets := jsArraySet prev.sets setIndex
    { currentSetData with
      scoreA := step.newScoreA, scoreB := step.newScoreB,
      history := currentHistory ++
        [{ teamId := teamId, playerId := playerId, logType := ptypeStr,
           scoreSnapshot := scoreSnap step.newScoreA step.newScoreB }] }
  if setFinished ∧ step.pointAwarded then
    let winsA := (finishedSets.filter (fun s => s.scoreB < s.scoreA)).length
    let winsB := (finishedSets.filter (fun s => s.scoreA < s.scoreB)).length
    let requiredWins := (prev.config.maxSets + 1) / 2
    if winsA = requiredWins ∨ winsB = requiredWins then
      { prev with
        status := "finished"
        scoreA := step.newScoreA
        scoreB := step.newScoreB
        sets := finishedSets
        servingTeamId := step.newServingTeam
        rotationA := step.newRotationA
        rotationB := step.newRotationB }
    else
      { prev with
        status := "finished_set"
        scoreA := step.newScoreA
        scoreB := step.newScoreB
        sets := finishedSets
        servingTeamId := step.newServingTeam
        rotationA := step.newRotationA
        rotationB := step.newRotationB }
  else
    { prev with
      status := newStatus
      scoreA := step.newScoreA
      scoreB := step.newScoreB
      sets := finishedSets
      servingTeamId := step.newServingTeam
      rotationA := step.newRotationA
      rotationB := step.newRotationB }

/-- Model of `teams.find(t => t.players.some(p => rot.some(r => r.id === p.id)))?.id`. -/
def findTeamIdOfRotation (teams : List Team) (rot : List Player) : Option String :=
  (teams.find? (fun t => t.players.any (fun p => rot.any (fun r => r.id = p.id)))).map
    (fun t => t.id)

/-- Model of `handlePoint` of `src/App.tsx` (lines 192-320). -/
def handlePointApp (teams : List Team) (teamId ptypeStr : String)
    (playerId : Option String) (prev : LiveMatchState) : LiveMatchState :=
  if prev.status = "finished" ∨ prev.status = "finished_set" then prev else
  let isTeamA := findTeamIdOfRotation teams prev.rotationA = some teamId
  let isRedCard := ptypeStr = "red_card"
  let isYellowCard := ptypeStr = "yellow_card"
  let pointForTeamId : Option String :=
    if isYellowCard then none
    else if isRedCard then
      if isTeamA then prev.rotationB.head?.map (fun p => p.id)
      else prev.rotationA.head?.map (fun p => p.id)
    else some teamId
  let scores : Int × Int :=
    match pointForTeamId with
    | none => (prev.scoreA, prev.scoreB)
    | some pft =>
        if isTeamA ∧ pft = teamId then (prev.scoreA + 1, prev.scoreB)
        else if (¬ isTeamA) ∧ pft = teamId then (prev.scoreA, prev.scoreB + 1)
        else if isRedCard then
          if isTeamA then (prev.scoreA, prev.scoreB + 1) else (prev.scoreA + 1, prev.scoreB)
        else (prev.scoreA, prev.scoreB)
  let nextScoreA := scores.1
  let nextScoreB := scores.2
  let pointWinnerIsA := (pointForTeamId = some teamId ∧ isTeamA) ∨ (isRedCard ∧ ¬ isTeamA)
  let pointWinnerTeamId : Option String :=
    if pointWinnerIsA then
      match prev.rotationA.head? with
      | some r0 =>
          (teams.find? (fun t => t.players.any (fun p => p.id = r0.id))).map (fun t => t.id)
      | none => none
    else
      match prev.rotationB.head? with
      | some r0 =>
          (teams.find? (fun t => t.players.any (fun p => p.id = r0.id))).map (fun t => t.id)
      | none => none
  let serveRot : String × List Player × List Player :=
    match pointForTeamId with
    | none => (prev.servingTeamId, prev.rotationA, prev.rotationB)
    | some _ =>
        if some prev.servingTeamId ≠ pointWinnerTeamId then
          let ns := pointWinnerTeamId.getD prev.servingTeamId
          if pointWinnerIsA then (ns, rotatePopUnshift prev.rotationA, prev.rotationB)
          else (ns, prev.rotationA, rotatePopUnshift prev.rotationB)
        else (prev.servingTeamId, prev.rotationA, prev.rotationB)
  let limit :=
    if prev.currentSet = prev.config.maxSets then prev.config.tieBreakPoints
    else prev.config.pointsPerSet
  let setWon := (limit ≤ nextScoreA ∨ limit ≤ nextScoreB) ∧ 2 ≤ |nextScoreA - nextScoreB|
  let cur := prev.sets.getD (prev.currentSet - 1) emptySet
  let newSets := jsArraySet prev.sets (prev.currentSet - 1)
    { cur with
      scoreA := nextScoreA
      scoreB := nextScoreB
      history := cur.history ++
        [{ teamId := teamId, playerId := playerId, logType := ptypeStr,
           scoreSnapshot := scoreSnap nextScoreA nextScoreB }] }
  { prev with
    scoreA := nextScoreA
    scoreB := nextScoreB
    sets := newSets
    servingTeamId := serveRot.1
    rotationA := serveRot.2.1
    rotationB := serveRot.2.2
    status := if setWon then "finished_set" else "playing" }

/-- Model of `handleNextSet` of `src/App.tsx` (lines 322-367), restricted to the
`liveMatch` document it produces (the tournament-fixture bookkeeping of
the match-over branch touches a different path). -/
def handleNextSetApp (prev : LiveMatchState) : LiveMatchState :=
  let winsA := (prev.sets.filter (fun s => s.scoreB < s.scoreA)).length
  let winsB := (prev.sets.filter (fun s => s.scoreA < s.scoreB)).length
  let requiredWins := (prev.config.maxSets + 1) / 2
  if winsA = requiredWins ∨ winsB = requiredWins then
    { prev with status := "finished" }
  else
    { prev with
      currentSet := prev.currentSet + 1,
      scoreA := 0, scoreB := 0,
      timeoutsA := 0, timeoutsB := 0,
      substitutionsA := 0, substitutionsB := 0,
      sets := prev.sets ++ [emptySet],
      status := "playing" }

/-- Model of `handleSubtractPoint` of the sibling implementation (part_001 lines
730-762), as the pure updater passed to `updateLiveMatch`; `isTeamA` is
`teamId === fixture.teamAId`. -/
def handleSubtractPoint001 (isTeamA : Bool) (prev : LiveMatchState) : LiveMatchState :=
  let newScores : Option (Int × Int) :=
    if isTeamA ∧ 0 < prev.scoreA then some (prev.scoreA - 1, prev.scoreB)
    else if (¬ isTeamA = true) ∧ 0 < prev.scoreB then some (prev.scoreA, prev.scoreB - 1)
    else none
  match newScores with
  | none => prev
  | some (newScoreA, newScoreB) =>
      let setIndex := prev.currentSet - 1
      let currentSetData := prev.sets.getD setIndex emptySet
      let currentHistory := currentSetData.history
      let newHistory :=
        if 0 < currentHistory.length then currentHistory.dropLast else currentHistory
      let finishedSets := jsArraySet prev.sets setIndex
        { currentSetData with
          scoreA := newScoreA, scoreB := newScoreB, history := newHistory }
      { prev with
        status := "playing"
        scoreA := newScoreA
        scoreB := newScoreB
        sets := finishedSets }

/-- Model of `getRotation` inside `startMatch` of `src/App.tsx`: the first six
roster players, with no validation when the roster is smaller. -/
def getRotationApp (t : Team) : List Player :=
  t.players.take 6

/-- Model of `startMatch` of `src/App.tsx` (lines 154-190): the initial
`LiveMatchState` document it publishes. -/
def startMatchApp (fixtureId : String) (teamA teamB : Team) : LiveMatchState :=
  { matchId := fixtureId,
    config := { maxSets := 5, pointsPerSet := 25, tieBreakPoints := 15 },
    status := "warmup",
    currentSet := 1,
    sets := [emptySet],
    rotationA := getRotationApp teamA,
    rotationB := getRotationApp teamB,
    benchA := teamA.players.drop 6,
    benchB := teamB.players.drop 6,
    servingTeamId := teamA.id,
    scoreA := 0, scoreB := 0,
    timeoutsA := 0, timeoutsB := 0,
    substitutionsA := 0, substitutionsB := 0,
    requests := [] }

/-- The team object built by the "Crear Equipo" click handler of
`src/App.tsx` (view `teams`): a brand-new team starts with an empty
roster. -/
def createTeamApp (id name : String) : Team :=
  { id := id, name := name, players := [] }

/-- Model of `handleConfirmSub` of the sibling implementation (part_001 lines
785-830), as the pure updater: swap the rotation player wearing
`outNum` with the bench player wearing `inNum`; if either is not found,
the state is returned unchanged. -/
def handleConfirmSub001 (isTeamA : Bool) (outNum inNum : Int)
    (prev : LiveMatchState) : LiveMatchState :=
  let currentRotation := if isTeamA then prev.rotationA else prev.rotationB
  let currentBench := if isTeamA then prev.benchA else prev.benchB
  match currentRotation.findIdx? (fun p => p.number = outNum),
        currentBench.findIdx? (fun p => p.number = inNum) with
  | some oi, some ii =>
      match currentRotation.get? oi, currentBench.get? ii with
      | some playerOut, some playerIn =>
          let newRotation := currentRotation.set oi playerIn
          let newBench := currentBench.set ii playerOut
          { prev with
            rotationA := if isTeamA then newRotation else prev.rotationA,
            rotationB := if ¬ isTeamA then newRotation else prev.rotationB,
            benchA := if isTeamA then newBench else prev.benchA,
            benchB := if ¬ isTeamA then newBench else prev.benchB,
            substitutionsA := if isTeamA then prev.substitutionsA + 1 else prev.substitutionsA,
            substitutionsB := if ¬ isTeamA then prev.substitutionsB + 1 else prev.substitutionsB }
      | _, _ => prev
  | _, _ => prev

/-- Model of `handleUpdateRotation` of the sibling implementation (part_001 lines
843-876): build the new rotation from the six jersey numbers entered,
abort unless exactly six team players were matched, and send every
remaining team player to the bench. -/
def handleUpdateRotation001 (isTeamA : Bool) (team : Team)
    (rotationInput : List Int) (prev : LiveMatchState) : LiveMatchState :=
  let newRotation :=
    rotationInput.filterMap (fun num => team.players.find? (fun pl => pl.number = num))
  if newRotation.length ≠ 6 then prev
  else
    let newBench := team.players.filter (fun p => ¬ newRotation.any (fun r => r.id = p.id))
    { prev with
      rotationA := if isTeamA then newRotation else prev.rotationA,
      rotationB := if ¬ isTeamA then newRotation else prev.rotationB,
      benchA := if isTeamA then newBench else prev.benchA,
      benchB := if ¬ isTeamA then newBench else prev.benchB }

/-- The hard-coded `INITIAL_USERS` of `src/App.tsx`, as the wire value of the `users`
path. -/
def initialUsersJS : JSValue :=
  .jarr
    [ .jobj [("id", .jstr "admin"), ("username", .jstr "admin"),
             ("password", .jstr "123"), ("role", .jstr "ADMIN")],
      .jobj [("id", .jstr "tv"), ("username", .jstr "tv"),
             ("password", .jstr "123"), ("role", .jstr "VIEWER")] ]

/-- The `users` sync callback of `src/App.tsx` (line 70):
`(data) => { if (data) setUsers(data); else setUsers(INITIAL_USERS); }`.
JavaScript truthiness decides the branch, so an empty array (truthy) is
installed as-is. -/
def usersCallbackApp (data : JSValue) : JSValue :=
  if truthy data then data else initialUsersJS

/-- Applying a received `INIT` snapshot to the `users` slice of a fresh
`src/App.tsx` client whose current slice is `cur`: the client-side
dispatch (cloud.ts lines 67-73) invokes the `users` listener only when
the snapshot has a `users` key. -/
def applyInitToUsersSlice (cur : JSValue) (s : RelayState) : JSValue :=
  match lookupPath s "users" with
  | none => cur
  | some v => usersCallbackApp v

/-- Whether a wire value is a non-empty array. -/
def isNonEmptyArr : JSValue → Bool
  | .jarr (_ :: _) => true
  | _ => false

/-- Executable form of the scoreboard-sets invariant: the current set
index is in bounds and the entry there carries the match's top-level
scores. -/
def setsInvB (m : LiveMatchState) : Bool :=
  decide (1 ≤ m.currentSet) && decide (m.sets.length = m.currentSet) &&
    (match m.sets.get? (m.currentSet - 1) with
     | some s => decide (s.scoreA = m.scoreA) && decide (s.scoreB = m.scoreB)
     | none => false)

/-- Whether a socket event is a close. -/
def isCloseEvent : SocketEvent → Bool
  | .seClose => true
  | .seOpen => false

/-- Concrete teams and a started match used as evaluation inputs by the
witness theorems below. -/
def mkPlayer (pid : String) (num : Int) : Player :=
  { id := pid, name := pid, number := num }

def sampleTeamA : Team :=
  { id := "TA", name := "Alpha",
    players := [mkPlayer "a1" 1, mkPlayer "a2" 2, mkPlayer "a3" 3, mkPlayer "a4" 4,
                mkPlayer "a5" 5, mkPlayer "a6" 6, mkPlayer "a7" 7] }

def sampleTeamB : Team :=
  { id := "TB", name := "Beta",
    players := [mkPlayer "b1" 1, mkPlayer "b2" 2, mkPlayer "b3" 3, mkPlayer "b4" 4,
                mkPlayer "b5" 5, mkPlayer "b6" 6] }

def sampleMatch : LiveMatchState := startMatchApp "f1" sampleTeamA sampleTeamB


/-! ## Claim theorems -/

/-! Basic lemmas about the relay state. -/

theorem lookupPath_setPath_self (s : RelayState) (p : String) (v : JSValue) :
    lookupPath (setPath s p v) p = some v := by
  induction s with
  | nil => simp [setPath, lookupPath]
  | cons hd tl ih =>
      obtain ⟨k, w⟩ := hd
      by_cases h : k = p
      · simp [setPath, lookupPath, h]
      · simp [setPath, lookupPath, h, ih]

theorem lookupPath_setPath_ne (s : RelayState) (p q : String) (v : JSValue)
    (h : q ≠ p) : lookupPath (setPath s p v) q = lookupPath s q := by
  have hpq : ¬ p = q := fun hh => h hh.symm
  induction s with
  | nil => simp [setPath, lookupPath, hpq]
  | cons hd tl ih =>
      obtain ⟨k, w⟩ := hd
      by_cases hk : k = p
      · subst hk
        simp [setPath, lookupPath, hpq]
      · simp only [setPath, if_neg hk, lookupPath]
        by_cases hq : k = q
        · simp [hq]
        · simp [hq, ih]


/-- C1: on receiving `UPDATE {path, value}` from connection C, the relay
overwrites its in-memory state at `path` with `value` (other paths
unchanged) and forwards the same `UPDATE` frame exactly to the
currently-open connections other than C — never back to C, and a
connection that is not open receives nothing (there is no queue). -/
theorem relay_update_step (state : RelayState) (clients : List Conn) (sender : Nat)
    (path : String) (data : JSValue) :
    lookupPath (serverHandleMessage state clients sender
        (some (ParsedMsg.update path data))).state path = some data ∧
    (∀ q, q ≠ path →
      lookupPath (serverHandleMessage state clients sender
          (some (ParsedMsg.update path data))).state q = lookupPath state q) ∧
    (∀ i fr,
      (i, fr) ∈ (serverHandleMessage state clients sender
          (some (ParsedMsg.update path data))).sends ↔
        (fr = OutFrame.updateF path data ∧
          ∃ c, c ∈ clients ∧ c.id = i ∧ i ≠ sender ∧ c.readyState = ReadyState.opened)) ∧
    (∀ fr, (sender, fr) ∉ (serverHandleMessage state clients sender
        (some (ParsedMsg.update path data))).sends) ∧
    (serverHandleMessage state clients sender
        (some (ParsedMsg.update path data))).closes = [] := by
  have hmem : ∀ i fr,
      (i, fr) ∈ (serverHandleMessage state clients sender
          (some (ParsedMsg.update path data))).sends ↔
        (fr = OutFrame.updateF path data ∧
          ∃ c, c ∈ clients ∧ c.id = i ∧ i ≠ sender ∧ c.readyState = ReadyState.opened) := by
    intro i fr
    simp only [serverHandleMessage, List.mem_map, List.mem_filter, decide_eq_true_eq,
      Prod.mk.injEq]
    constructor
    · rintro ⟨c, ⟨hc, hne, hop⟩, hci, hfr⟩
      exact ⟨hfr.symm, c, hc, hci, hci ▸ hne, hop⟩
    · rintro ⟨rfl, c, hc, rfl, hne, hop⟩
      exact ⟨c, ⟨hc, hne, hop⟩, rfl, rfl⟩
  refine ⟨lookupPath_setPath_self _ _ _,
          fun q hq => lookupPath_setPath_ne _ _ _ _ hq, hmem, ?_, rfl⟩
  intro fr h
  obtain ⟨-, c, -, hci, hne, -⟩ := (hmem sender fr).mp h
  exact hne rfl

/-- C1 witness. -/
theorem relay_update_step_witness :
    "users" ≠ "liveMatch" ∧
    lookupPath (serverHandleMessage initialState [{ id := 1, readyState := .opened }] 1
        (some (ParsedMsg.update "liveMatch" (JSValue.jnum 3)))).state "users"
      = lookupPath initialState "users" :=
  ⟨by decide,
   (relay_update_step initialState [{ id := 1, readyState := .opened }] 1 "liveMatch"
      (JSValue.jnum 3)).2.1 "users" (by decide)⟩

/-- C2 counterexample: against a freshly started relay (whose initial
state maps `users` to the empty array), a fresh `src/App.tsx` client
does receive the `INIT` with the full mapping, but applying it leaves
the `users` slice EMPTY: the empty array is truthy in JavaScript, so
the hard-coded default admin list is not installed.  This refutes the
claim that the bootstrap yields a non-empty `users` slice even when the
remote `users` value is empty. -/
theorem bootstrap_empty_users_cex :
    serverOnConnection initialState = OutFrame.initF initialState ∧
    applyInitToUsersSlice initialUsersJS initialState = JSValue.jarr [] ∧
    isNonEmptyArr (JSValue.jarr []) = false :=
  ⟨rfl, rfl, rfl⟩

/-- C2 amended: every fresh connection is sent an `INIT` frame with the
entire current state, and applying it to a fresh `src/App.tsx` client
produces a non-empty `users` slice when the remote `users` value is
ABSENT or null; a present-but-empty `users` array, being truthy, is
installed as-is (so only absence triggers the default-admin fallback). -/
theorem bootstrap_absent_users_fallback (s : RelayState)
    (h : lookupPath s "users" = none ∨ lookupPath s "users" = some JSValue.jnull) :
    serverOnConnection s = OutFrame.initF s ∧
    applyInitToUsersSlice initialUsersJS s = initialUsersJS ∧
    isNonEmptyArr initialUsersJS = true ∧
    (∀ v, truthy v = true → usersCallbackApp v = v) := by
  refine ⟨rfl, ?_, rfl, fun v hv => by simp [usersCallbackApp, hv]⟩
  rcases h with h | h <;>
    simp [applyInitToUsersSlice, h, usersCallbackApp, truthy]

/-- C2 witness. -/
theorem bootstrap_absent_users_fallback_witness :
    lookupPath [("users", JSValue.jnull)] "users" = some JSValue.jnull ∧
    applyInitToUsersSlice initialUsersJS [("users", JSValue.jnull)] = initialUsersJS :=
  ⟨rfl, (bootstrap_absent_users_fallback [("users", JSValue.jnull)] (Or.inr rfl)).2.1⟩

/-- C9: an unparseable message is caught and logged on both sides: the
relay leaves its state unchanged, sends nothing and keeps the
connection open (the handler closes no connection on any input), and
the client invokes no listener. -/
theorem malformed_frame_tolerated (state : RelayState) (clients : List Conn)
    (sender : Nat) (ls : Listeners) :
    (serverHandleMessage state clients sender none).state = state ∧
    (serverHandleMessage state clients sender none).sends = [] ∧
    (serverHandleMessage state clients sender none).loggedError = true ∧
    clientOnMessage ls none = [] ∧
    (∀ msg, (serverHandleMessage state clients sender msg).closes = []) := by
  refine ⟨rfl, rfl, rfl, rfl, fun msg => ?_⟩
  cases msg with
  | none => rfl
  | some m => cases m <;> rfl

/-- C7: every connection loss schedules exactly one reconnect, always
with the fixed 3000 ms delay (no backoff growth, no cap — one schedule
per close, however many closes occur); the only frame the on-open
handler sends is `SYNC_REQUEST`; and the server answers `SYNC_REQUEST`
from C by resending the full `INIT` snapshot to C alone, leaving its
state unchanged. -/
theorem reconnect_and_resync (evs : List SocketEvent) (state : RelayState)
    (clients : List Conn) (sender : Nat) :
    (traceActions evs).countP isReconnectAction = evs.countP isCloseEvent ∧
    (∀ d, ClientAction.scheduleReconnect d ∈ traceActions evs → d = 3000) ∧
    onOpenActions.filter isSendAction = [ClientAction.sendFrame ClientFrame.syncReq] ∧
    serverHandleMessage state clients sender (some ParsedMsg.syncRequest) =
      { state := state, sends := [(sender, OutFrame.initF state)], closes := [],
        loggedError := false } := by
  refine ⟨?_, ?_, rfl, rfl⟩
  · induction evs with
    | nil => rfl
    | cons e rest ih =>
        simp only [traceActions, List.flatMap_cons, List.countP_append] at ih ⊢
        cases e <;>
          simp [socketEventActions, onOpenActions, onCloseActions, isReconnectAction,
            isCloseEvent, List.countP_cons, ih]
        omega
  · induction evs with
    | nil => intro d hd; simp [traceActions] at hd
    | cons e rest ih =>
        intro d hd
        rw [show traceActions (e :: rest) = socketEventActions e ++ traceActions rest by
          simp [traceActions]] at hd
        rcases List.mem_append.mp hd with h | h
        · cases e <;> simp [socketEventActions, onOpenActions, onCloseActions] at h
          exact h
        · exact ih d h

/-- C7 witness. -/
theorem reconnect_and_resync_witness :
    ClientAction.scheduleReconnect 3000 ∈ traceActions [SocketEvent.seClose] ∧
    3000 = 3000 := by
  have hm : ClientAction.scheduleReconnect 3000 ∈ traceActions [SocketEvent.seClose] := by
    simp [traceActions, socketEventActions, onCloseActions]
  exact ⟨hm, (reconnect_and_resync [SocketEvent.seClose] initialState [] 0).2.1 3000 hm⟩

theorem lookupListeners_setListenerList_self (ls : Listeners) (p : String) (l : List Nat) :
    lookupListeners (setListenerList ls p l) p = some l := by
  induction ls with
  | nil => simp [setListenerList, lookupListeners]
  | cons hd tl ih =>
      obtain ⟨k, cbs⟩ := hd
      by_cases h : k = p
      · simp [setListenerList, lookupListeners, h]
      · simp [setListenerList, lookupListeners, h, ih]

theorem lookupListeners_setListenerList_ne (ls : Listeners) (p q : String) (l : List Nat)
    (h : q ≠ p) : lookupListeners (setListenerList ls p l) q = lookupListeners ls q := by
  have hpq : ¬ p = q := fun hh => h hh.symm
  induction ls with
  | nil => simp [setListenerList, lookupListeners, hpq]
  | cons hd tl ih =>
      obtain ⟨k, cbs⟩ := hd
      by_cases hk : k = p
      · subst hk
        simp [setListenerList, lookupListeners, hpq]
      · simp only [setListenerList, if_neg hk, lookupListeners]
        by_cases hq : k = q
        · simp [hq]
        · simp [hq, ih]

theorem clientOnMessage_update (ls : Listeners) (p : String) (d : JSValue) :
    clientOnMessage ls (some (ClientMsg.updateMsg p d)) =
      (getListeners ls p).map (fun cb => (cb, d)) := by
  unfold clientOnMessage getListeners
  cases h : lookupListeners ls p <;> simp [h]

/-- C5 counterexample: for the same non-serializable value (a BigInt),
the Firebase branch of `pushData` swallows the failure with a logged
warning and returns normally, but the WebSocket branch has no
try/catch — `JSON.stringify` at the `socket.send` throws and the
failure propagates to the caller.  This refutes the claim that on
either backend a serialization failure is swallowed with a logged
warning. -/
theorem publish_serialization_cex :
    pushDataFirebase "liveMatch" JSValue.jbig = .ok [PushEffect.logSyncError] ∧
    pushDataWS (some ReadyState.opened) none "liveMatch" JSValue.jbig = .error () :=
  ⟨rfl, rfl⟩

/-- C5 amended: every `pushData` call serializes the value through the
JSON format before transmission; on the Firebase backend the value is
round-tripped and a serialization failure is swallowed with a logged
warning (the call always returns normally), while on the relay backend
the frame is serialized by `JSON.stringify` at send time and a
serialization failure propagates to the caller uncaught; in either
failure case shared state is not updated for that path. -/
theorem publish_serialization_amended (path : String) (data : JSValue) :
    (∃ effs, pushDataFirebase path data = Except.ok effs) ∧
    (∀ c, cleanData data = some c →
      pushDataFirebase path data = .ok [PushEffect.firebaseSet path c]) ∧
    (cleanData data = none →
      pushDataFirebase path data = .ok [PushEffect.logSyncError]) ∧
    (∀ r, jsonStringify (updateFrame path data) = .error () →
      pushDataWS (some ReadyState.opened) r path data = .error ()) ∧
    (∀ r f, jsonStringify (updateFrame path data) = .ok (some f) →
      pushDataWS (some ReadyState.opened) r path data = .ok [PushEffect.sendNow f]) := by
  refine ⟨?_, ?_, ?_, ?_, ?_⟩
  · unfold pushDataFirebase
    cases cleanData data <;> exact ⟨_, rfl⟩
  · intro c hc
    simp [pushDataFirebase, hc]
  · intro hc
    simp [pushDataFirebase, hc]
  · intro r h
    simp [pushDataWS, h]
  · intro r f h
    simp [pushDataWS, h]

/-- C5 witness. -/
theorem publish_serialization_amended_witness :
    cleanData JSValue.jnull = some JSValue.jnull ∧
    pushDataFirebase "users" JSValue.jnull
      = .ok [PushEffect.firebaseSet "users" JSValue.jnull] ∧
    jsonStringify (updateFrame "users" JSValue.jbig) = .error () ∧
    pushDataWS (some ReadyState.opened) none "users" JSValue.jbig = .error () :=
  ⟨rfl, (publish_serialization_amended "users" JSValue.jnull).2.1 JSValue.jnull rfl, rfl,
   (publish_serialization_amended "users" JSValue.jbig).2.2.2.1 none rfl⟩

/-- C6 counterexample: a frame published while the socket object is in
the `closed` state — not open, and not still establishing — is NOT
dropped: the code schedules the same single 1000 ms retry for every
non-open socket, and since the socket is open again by the time the
timer fires, the frame is delivered.  This refutes the claim that the
frame is retried only while establishing and otherwise dropped. -/
theorem publish_retry_cex :
    pushDataWS (some ReadyState.closed) (some ReadyState.opened) "liveMatch" JSValue.jnull
      = .ok [PushEffect.scheduleRetry 1000,
             PushEffect.sendNow (updateFrame "liveMatch" JSValue.jnull)] :=
  rfl

/-- C6 amended: the `UPDATE` frame is sent immediately iff a socket
object exists and is open; if a socket object exists in any non-open
state (connecting, closing or closed) exactly one retry is scheduled
after a fixed 1000 ms and the frame is sent then iff the socket is open
at that moment; only when no socket object exists is the frame dropped
outright.  No delivery confirmation reaches the caller in any case. -/
theorem publish_retry_amended (sockAtRetry : Option ReadyState) (path : String)
    (data : JSValue) (f : JSValue)
    (hser : jsonStringify (updateFrame path data) = .ok (some f)) :
    pushDataWS (some ReadyState.opened) sockAtRetry path data
      = .ok [PushEffect.sendNow f] ∧
    (∀ st, st ≠ ReadyState.opened →
      pushDataWS (some st) sockAtRetry path data =
        .ok (PushEffect.scheduleRetry 1000 ::
          (if sockAtRetry = some ReadyState.opened then [PushEffect.sendNow f] else []))) ∧
    pushDataWS none sockAtRetry path data = .ok [] := by
  refine ⟨by simp [pushDataWS, hser], ?_, rfl⟩
  intro st hst
  cases st
  case opened => exact absurd rfl hst
  all_goals
    cases sockAtRetry with
    | none => simp [pushDataWS, hser]
    | some rs => cases rs <;> simp [pushDataWS, hser]

/-- C6 witness. -/
theorem publish_retry_amended_witness :
    jsonStringify (updateFrame "users" JSValue.jnull)
        = .ok (some (updateFrame "users" JSValue.jnull)) ∧
    pushDataWS (some ReadyState.opened) none "users" JSValue.jnull
      = .ok [PushEffect.sendNow (updateFrame "users" JSValue.jnull)] ∧
    ReadyState.connecting ≠ ReadyState.opened ∧
    pushDataWS (some ReadyState.connecting) none "users" JSValue.jnull
      = .ok [PushEffect.scheduleRetry 1000] := by
  have h := publish_retry_amended none "users" JSValue.jnull
    (updateFrame "users" JSValue.jnull) rfl
  exact ⟨rfl, h.1, by decide, by simpa using h.2.1 ReadyState.connecting (by decide)⟩

/-- C8 counterexample: on the Firebase backend, `syncData` pushes the
callback onto the per-path listener list but returns Firebase's
`unsubscribe`, which cancels only the datastore subscription — the
callback is NOT removed from the per-path listener list.  This refutes
the claim that on both backends the returned function removes exactly
that callback from the per-path listener list. -/
theorem unsubscribe_fb_cex :
    (unsubscribeFB (syncDataFB { listeners := [], subs := [] } "users" 7 0) 0).subs = [] ∧
    getListeners
        (unsubscribeFB (syncDataFB { listeners := [], subs := [] } "users" 7 0) 0).listeners
        "users" = [7] :=
  ⟨rfl, rfl⟩

/-- C8 amended: on the relay backend the function returned by
`syncData(path, cb)` removes the occurrences of `cb` from that path's
listener list and nothing else: every other callback on that path and
every callback on other paths stays registered and is still invoked by
subsequent `UPDATE` dispatches; registration appends, so multiple
independent subscribers per path are supported.  On the Firebase
backend the returned function cancels only that `onValue` subscription
and leaves the listener list untouched (the list is unused for dispatch
there). -/
theorem unsubscribe_isolation_amended (ls : Listeners) (p q : String) (cb : Nat)
    (d : JSValue) :
    getListeners (registerListener ls p cb) p = getListeners ls p ++ [cb] ∧
    getListeners (unsubscribeWS ls p cb) p
      = (getListeners ls p).filter (fun c => c ≠ cb) ∧
    cb ∉ getListeners (unsubscribeWS ls p cb) p ∧
    (∀ cb', cb' ≠ cb →
      (cb' ∈ getListeners (unsubscribeWS ls p cb) p ↔ cb' ∈ getListeners ls p)) ∧
    (q ≠ p → getListeners (unsubscribeWS ls p cb) q = getListeners ls q) ∧
    clientOnMessage (unsubscribeWS ls p cb) (some (ClientMsg.updateMsg p d)) =
      ((getListeners ls p).filter (fun c => c ≠ cb)).map (fun c => (c, d)) ∧
    (∀ st : FBState, ∀ token : Nat,
      (unsubscribeFB st token).listeners = st.listeners ∧
      (unsubscribeFB st token).subs = st.subs.filter (fun s => s.1 ≠ token)) := by
  have hfilter : getListeners (unsubscribeWS ls p cb) p
      = (getListeners ls p).filter (fun c => c ≠ cb) := by
    simp [unsubscribeWS, getListeners, lookupListeners_setListenerList_self]
  refine ⟨?_, hfilter, ?_, ?_, ?_, ?_, fun st token => ⟨rfl, rfl⟩⟩
  · simp [registerListener, getListeners, lookupListeners_setListenerList_self]
  · rw [hfilter]
    simp [List.mem_filter]
  · intro cb' hcb'
    rw [hfilter]
    simp [List.mem_filter, hcb']
  · intro hq
    simp [unsubscribeWS, getListeners, lookupListeners_setListenerList_ne _ _ _ _ hq]
  · rw [clientOnMessage_update, hfilter]

/-- C8 witness. -/
theorem unsubscribe_isolation_amended_witness :
    (1 ≠ 2) ∧ ("teams" ≠ "users") ∧
    (1 ∈ getListeners (unsubscribeWS [("users", [1, 2])] "users" 2) "users" ↔
      1 ∈ getListeners [("users", [1, 2])] "users") ∧
    getListeners (unsubscribeWS [("users", [1, 2])] "users" 2) "teams"
      = getListeners [("users", [1, 2])] "teams" :=
  ⟨by decide, by decide,
   (unsubscribe_isolation_amended [("users", [1, 2])] "users" "teams" 2
      JSValue.jnull).2.2.2.1 1 (by decide),
   (unsubscribe_isolation_amended [("users", [1, 2])] "users" "teams" 2
      JSValue.jnull).2.2.2.2.1 (by decide)⟩

theorem jsArraySet_length {l : List MatchSet} {i : Nat} (v : MatchSet)
    (h : i < l.length) : (jsArraySet l i v).length = l.length := by
  simp [jsArraySet, h]

theorem jsArraySet_get_self {l : List MatchSet} {i : Nat} (v : MatchSet)
    (h : i < l.length) : (jsArraySet l i v).get? i = some v := by
  simp only [jsArraySet, if_pos h]
  exact List.get?_set_eq_of_lt v h

theorem jsArraySet_get_ne {l : List MatchSet} {i j : Nat} (v : MatchSet)
    (h : i < l.length) (hij : i ≠ j) : (jsArraySet l i v).get? j = l.get? j := by
  simp only [jsArraySet, if_pos h]
  exact List.get?_set_ne v l hij

theorem setsInvB_iff (m : LiveMatchState) :
    setsInvB m = true ↔
      1 ≤ m.currentSet ∧ m.sets.length = m.currentSet ∧
        ∃ s, m.sets.get? (m.currentSet - 1) = some s ∧
          s.scoreA = m.scoreA ∧ s.scoreB = m.scoreB := by
  unfold setsInvB
  cases h : m.sets.get? (m.currentSet - 1) with
  | none => simp [h]
  | some s => simp [h, and_assoc]

theorem setsInv_of_update {m m' : LiveMatchState} {e : MatchSet}
    (h : setsInvB m = true)
    (hcs : m'.currentSet = m.currentSet)
    (hsa : m'.scoreA = e.scoreA) (hsb : m'.scoreB = e.scoreB)
    (hsets : m'.sets = jsArraySet m.sets (m.currentSet - 1) e) :
    setsInvB m' = true ∧ m'.sets.length = m.sets.length ∧
      (∀ i, i ≠ m.currentSet - 1 → m'.sets.get? i = m.sets.get? i) := by
  obtain ⟨h1, h2, s, hs, _, _⟩ := (setsInvB_iff m).mp h
  have hidx : m.currentSet - 1 < m.sets.length := by omega
  refine ⟨(setsInvB_iff m').mpr ⟨by omega, ?_, e, ?_, hsa.symm, hsb.symm⟩, ?_, ?_⟩
  · rw [hsets, hcs, jsArraySet_length e hidx, h2]
  · rw [hsets, hcs]
    exact jsArraySet_get_self e hidx
  · rw [hsets]
    exact jsArraySet_length e hidx
  · intro i hi
    rw [hsets]
    exact jsArraySet_get_ne e hidx (fun hh => hi hh.symm)

theorem handlePoint001_shape (tA tB tId pt : String) (pid : Option String)
    (m : LiveMatchState) :
    handlePoint001 tA tB tId pt pid m = m ∨
    ∃ st' a b hist srv rA rB, handlePoint001 tA tB tId pt pid m =
      { m with
        status := st'
        scoreA := a
        scoreB := b
        sets := jsArraySet m.sets (m.currentSet - 1)
          { m.sets.getD (m.currentSet - 1) emptySet with
            scoreA := a
            scoreB := b
            history := hist }
        servingTeamId := srv
        rotationA := rA
        rotationB := rB } := by
  unfold handlePoint001
  lift_lets
  intros
  split
  · exact Or.inl rfl
  · split
    · split
      · exact Or.inr ⟨_, _, _, _, _, _, _, rfl⟩
      · exact Or.inr ⟨_, _, _, _, _, _, _, rfl⟩
    · exact Or.inr ⟨_, _, _, _, _, _, _, rfl⟩

theorem handlePointApp_shape (teams : List Team) (tId pt : String) (pid : Option String)
    (m : LiveMatchState) :
    handlePointApp teams tId pt pid m = m ∨
    ∃ st' a b hist srv rA rB, handlePointApp teams tId pt pid m =
      { m with
        status := st'
        scoreA := a
        scoreB := b
        sets := jsArraySet m.sets (m.currentSet - 1)
          { m.sets.getD (m.currentSet - 1) emptySet with
            scoreA := a
            scoreB := b
            history := hist }
        servingTeamId := srv
        rotationA := rA
        rotationB := rB } := by
  unfold handlePointApp
  lift_lets
  intros
  split
  · exact Or.inl rfl
  · exact Or.inr ⟨_, _, _, _, _, _, _, rfl⟩

theorem handleSubtractPoint001_shape (isTeamA : Bool) (m : LiveMatchState) :
    handleSubtractPoint001 isTeamA m = m ∨
    ∃ a b hist, handleSubtractPoint001 isTeamA m =
      { m with
        status := "playing"
        scoreA := a
        scoreB := b
        sets := jsArraySet m.sets (m.currentSet - 1)
          { m.sets.getD (m.currentSet - 1) emptySet with
            scoreA := a
            scoreB := b
            history := hist } } := by
  by_cases h1 : isTeamA = true ∧ 0 < m.scoreA
  · refine Or.inr ⟨m.scoreA - 1, m.scoreB,
      (if 0 < (m.sets.getD (m.currentSet - 1) emptySet).history.length then
        (m.sets.getD (m.currentSet - 1) emptySet).history.dropLast
      else (m.sets.getD (m.currentSet - 1) emptySet).history), ?_⟩
    unfold handleSubtractPoint001
    rw [if_pos h1]
  · by_cases h2 : (¬ isTeamA = true) ∧ 0 < m.scoreB
    · refine Or.inr ⟨m.scoreA, m.scoreB - 1,
        (if 0 < (m.sets.getD (m.currentSet - 1) emptySet).history.length then
          (m.sets.getD (m.currentSet - 1) emptySet).history.dropLast
        else (m.sets.getD (m.currentSet - 1) emptySet).history), ?_⟩
      unfold handleSubtractPoint001
      rw [if_neg h1, if_pos h2]
    · refine Or.inl ?_
      unfold handleSubtractPoint001
      rw [if_neg h1, if_neg h2]

theorem handleNextSetApp_shape (m : LiveMatchState) :
    handleNextSetApp m = { m with status := "finished" } ∨
    handleNextSetApp m =
      { m with
        currentSet := m.currentSet + 1
        scoreA := 0
        scoreB := 0
        timeoutsA := 0
        timeoutsB := 0
        substitutionsA := 0
        substitutionsB := 0
        sets := m.sets ++ [emptySet]
        status := "playing" } := by
  unfold handleNextSetApp
  lift_lets
  intros
  split
  · exact Or.inl rfl
  · exact Or.inr rfl

/-- C3: each match mutation handler — awarding a point (in both App
implementations), starting the next set, and subtracting a point —
preserves the scoreboard-sets invariant: the entry `sets[currentSet-1]`
exists and carries the match's top-level `scoreA`/`scoreB`; the point
and subtraction handlers keep `sets` the same length and touch no entry
other than `currentSet - 1`, and starting the next set either leaves
`sets` unchanged (match over) or grows it by exactly one entry appended
at the new `currentSet - 1`, leaving all previous entries intact. -/
theorem scoreboard_sets_invariant (teams : List Team) (tA tB tId pt : String)
    (pid : Option String) (isTeamA : Bool) (m : LiveMatchState)
    (h : setsInvB m = true) :
    (setsInvB (handlePoint001 tA tB tId pt pid m) = true ∧
      (handlePoint001 tA tB tId pt pid m).sets.length = m.sets.length ∧
      (∀ i, i ≠ m.currentSet - 1 →
        (handlePoint001 tA tB tId pt pid m).sets.get? i = m.sets.get? i)) ∧
    (setsInvB (handlePointApp teams tId pt pid m) = true ∧
      (handlePointApp teams tId pt pid m).sets.length = m.sets.length ∧
      (∀ i, i ≠ m.currentSet - 1 →
        (handlePointApp teams tId pt pid m).sets.get? i = m.sets.get? i)) ∧
    (setsInvB (handleNextSetApp m) = true ∧
      ((handleNextSetApp m).sets.length = m.sets.length ∨
        ((handleNextSetApp m).sets.length = m.sets.length + 1 ∧
          (handleNextSetApp m).currentSet - 1 = m.sets.length)) ∧
      (∀ i, i < m.sets.length →
        (handleNextSetApp m).sets.get? i = m.sets.get? i)) ∧
    (setsInvB (handleSubtractPoint001 isTeamA m) = true ∧
      (handleSubtractPoint001 isTeamA m).sets.length = m.sets.length ∧
      (∀ i, i ≠ m.currentSet - 1 →
        (handleSubtractPoint001 isTeamA m).sets.get? i = m.sets.get? i)) := by
  obtain ⟨h1, h2, s, hs, hsa, hsb⟩ := (setsInvB_iff m).mp h
  refine ⟨?_, ?_, ?_, ?_⟩
  · rcases handlePoint001_shape tA tB tId pt pid m with heq | ⟨a, b, hist, srv, rA, rB, st', heq⟩
    · rw [heq]
      exact ⟨h, rfl, fun i _ => rfl⟩
    · rw [heq]
      exact setsInv_of_update h rfl rfl rfl rfl
  · rcases handlePointApp_shape teams tId pt pid m with heq | ⟨a, b, hist, srv, rA, rB, st', heq⟩
    · rw [heq]
      exact ⟨h, rfl, fun i _ => rfl⟩
    · rw [heq]
      exact setsInv_of_update h rfl rfl rfl rfl
  · rcases handleNextSetApp_shape m with heq | heq
    · rw [heq]
      exact ⟨(setsInvB_iff _).mpr ⟨h1, h2, s, hs, hsa, hsb⟩, Or.inl rfl, fun i _ => rfl⟩
    · rw [heq]
      refine ⟨(setsInvB_iff _).mpr ⟨show 1 ≤ m.currentSet + 1 by omega,
          show (m.sets ++ [emptySet]).length = m.currentSet + 1 by simp [h2], emptySet, ?_, rfl, rfl⟩,
        Or.inr ⟨by simp, by simp [h2]⟩, fun i hi => ?_⟩
      · show (m.sets ++ [emptySet]).get? (m.currentSet + 1 - 1) = some emptySet
        rw [Nat.add_sub_cancel, ← h2]
        exact List.get?_concat_length m.sets emptySet
      · exact List.get?_append hi
  · rcases handleSubtractPoint001_shape isTeamA m with heq | ⟨a, b, hist, heq⟩
    · rw [heq]
      exact ⟨h, rfl, fun i _ => rfl⟩
    · rw [heq]
      exact setsInv_of_update h rfl rfl rfl rfl

theorem pop_guard_eq_dropLast (h : List PointLog) :
    (if 0 < h.length then h.dropLast else h) = h.dropLast := by
  cases h <;> simp

/-- C3 witness. -/
theorem scoreboard_sets_invariant_witness :
    setsInvB sampleMatch = true ∧
    setsInvB (handleNextSetApp sampleMatch) = true :=
  ⟨by decide,
   (scoreboard_sets_invariant [sampleTeamA, sampleTeamB] "TA" "TB" "TA" "attack" none true
      sampleMatch (by decide)).2.2.1.1⟩

/-- C10: `handleSubtractPoint` never produces a negative score; when the
selected team's score is 0 the state is returned completely unchanged;
otherwise exactly one is subtracted from that team's score (the other
team's score unchanged), the last entry of the current set's history is
removed, and the current set's stored scores are updated to the new
top-level scores. -/
theorem subtract_point_bounded (isTeamA : Bool) (prev : LiveMatchState)
    (hA : 0 ≤ prev.scoreA) (hB : 0 ≤ prev.scoreB) :
    (0 ≤ (handleSubtractPoint001 isTeamA prev).scoreA ∧
      0 ≤ (handleSubtractPoint001 isTeamA prev).scoreB) ∧
    (isTeamA = true → prev.scoreA = 0 → handleSubtractPoint001 isTeamA prev = prev) ∧
    (isTeamA = false → prev.scoreB = 0 → handleSubtractPoint001 isTeamA prev = prev) ∧
    (isTeamA = true → 0 < prev.scoreA → prev.currentSet - 1 < prev.sets.length →
      (handleSubtractPoint001 isTeamA prev).scoreA = prev.scoreA - 1 ∧
      (handleSubtractPoint001 isTeamA prev).scoreB = prev.scoreB ∧
      (handleSubtractPoint001 isTeamA prev).sets.get? (prev.currentSet - 1) =
        some { prev.sets.getD (prev.currentSet - 1) emptySet with
               scoreA := prev.scoreA - 1
               scoreB := prev.scoreB
               history :=
                 (prev.sets.getD (prev.currentSet - 1) emptySet).history.dropLast }) ∧
    (isTeamA = false → 0 < prev.scoreB → prev.currentSet - 1 < prev.sets.length →
      (handleSubtractPoint001 isTeamA prev).scoreA = prev.scoreA ∧
      (handleSubtractPoint001 isTeamA prev).scoreB = prev.scoreB - 1 ∧
      (handleSubtractPoint001 isTeamA prev).sets.get? (prev.currentSet - 1) =
        some { prev.sets.getD (prev.currentSet - 1) emptySet with
               scoreA := prev.scoreA
               scoreB := prev.scoreB - 1
               history :=
                 (prev.sets.getD (prev.currentSet - 1) emptySet).history.dropLast }) := by
  by_cases h1 : isTeamA = true ∧ 0 < prev.scoreA
  · have hres : handleSubtractPoint001 isTeamA prev =
        { prev with
          status := "playing"
          scoreA := prev.scoreA - 1
          scoreB := prev.scoreB
          sets := jsArraySet prev.sets (prev.currentSet - 1)
            { prev.sets.getD (prev.currentSet - 1) emptySet with
              scoreA := prev.scoreA - 1
              scoreB := prev.scoreB
              history :=
                (if 0 < (prev.sets.getD (prev.currentSet - 1) emptySet).history.length then
                  (prev.sets.getD (prev.currentSet - 1) emptySet).history.dropLast
                else (prev.sets.getD (prev.currentSet - 1) emptySet).history) } } := by
      unfold handleSubtractPoint001
      rw [if_pos h1]
    refine ⟨?_, ?_, ?_, ?_, ?_⟩
    · rw [hres]
      exact ⟨by dsimp; omega, hB⟩
    · intro _ h0
      exact absurd h1.2 (by omega)
    · intro hf _
      exact absurd h1.1 (by simp [hf])
    · intro _ _ hidx
      rw [hres]
      refine ⟨rfl, rfl, ?_⟩
      show (jsArraySet prev.sets (prev.currentSet - 1) _).get? (prev.currentSet - 1) = _
      rw [jsArraySet_get_self _ hidx, pop_guard_eq_dropLast]
    · intro hf _ _
      exact absurd h1.1 (by simp [hf])
  · by_cases h2 : (¬ isTeamA = true) ∧ 0 < prev.scoreB
    · have hres : handleSubtractPoint001 isTeamA prev =
          { prev with
            status := "playing"
            scoreA := prev.scoreA
            scoreB := prev.scoreB - 1
            sets := jsArraySet prev.sets (prev.currentSet - 1)
              { prev.sets.getD (prev.currentSet - 1) emptySet with
                scoreA := prev.scoreA
                scoreB := prev.scoreB - 1
                history :=
                  (if 0 < (prev.sets.getD (prev.currentSet - 1) emptySet).history.length then
                    (prev.sets.getD (prev.currentSet - 1) emptySet).history.dropLast
                  else (prev.sets.getD (prev.currentSet - 1) emptySet).history) } } := by
        unfold handleSubtractPoint001
        rw [if_neg h1, if_pos h2]
      refine ⟨?_, ?_, ?_, ?_, ?_⟩
      · rw [hres]
        exact ⟨hA, by dsimp; omega⟩
      · intro ht _
        exact absurd ht h2.1
      · intro _ h0
        exact absurd h2.2 (by omega)
      · intro ht _ _
        exact absurd ht h2.1
      · intro _ _ hidx
        rw [hres]
        refine ⟨rfl, rfl, ?_⟩
        show (jsArraySet prev.sets (prev.currentSet - 1) _).get? (prev.currentSet - 1) = _
        rw [jsArraySet_get_self _ hidx, pop_guard_eq_dropLast]
    · have hres : handleSubtractPoint001 isTeamA prev = prev := by
        unfold handleSubtractPoint001
        rw [if_neg h1, if_neg h2]
      refine ⟨?_, fun _ _ => hres, fun _ _ => hres, ?_, ?_⟩
      · rw [hres]
        exact ⟨hA, hB⟩
      · intro ht hpos _
        exact absurd ⟨ht, hpos⟩ h1
      · intro hf hpos _
        exact absurd ⟨by simp [hf], hpos⟩ h2

/-- C10 witness. -/
theorem subtract_point_bounded_witness :
    (0 ≤ sampleMatch.scoreA ∧ 0 ≤ sampleMatch.scoreB) ∧
    sampleMatch.scoreA = 0 ∧
    handleSubtractPoint001 true sampleMatch = sampleMatch :=
  ⟨⟨by decide, by decide⟩, by decide,
   (subtract_point_bounded true sampleMatch (by decide) (by decide)).2.1 rfl (by decide)⟩

theorem count_set_add {α : Type} [DecidableEq α] {l : List α} {i : Nat} {w : α}
    (h : l[i]? = some w) (v x : α) :
    (l.set i v).count x + (if w = x then 1 else 0)
      = l.count x + (if v = x then 1 else 0) := by
  induction l generalizing i with
  | nil => simp at h
  | cons hd tl ih =>
      cases i with
      | zero =>
          have hw : hd = w := by simpa using h
          subst hw
          show (v :: tl).count x + _ = _
          rw [List.count_cons, List.count_cons]
          simp only [beq_iff_eq]
          omega
      | succ n =>
          have h' : tl[n]? = some w := by simpa using h
          have hx := ih h'
          show (hd :: tl.set n v).count x + _ = _
          rw [List.count_cons, List.count_cons]
          simp only [beq_iff_eq]
          omega

theorem swap_set_perm {α : Type} [DecidableEq α] {rot bench : List α} {oi ii : Nat}
    {pOut pIn : α} (ho : rot[oi]? = some pOut) (hi : bench[ii]? = some pIn) :
    (rot.set oi pIn ++ bench.set ii pOut).Perm (rot ++ bench) := by
  rw [List.perm_iff_count]
  intro x
  have h1 := count_set_add ho pIn x
  have h2 := count_set_add hi pOut x
  simp only [List.count_append]
  omega

theorem handleConfirmSub001_core (isTeamA : Bool) (outNum inNum : Int)
    (m : LiveMatchState) :
    ((handleConfirmSub001 isTeamA outNum inNum m).rotationA.length = m.rotationA.length ∧
     (handleConfirmSub001 isTeamA outNum inNum m).rotationB.length = m.rotationB.length ∧
     (handleConfirmSub001 isTeamA outNum inNum m).benchA.length = m.benchA.length ∧
     (handleConfirmSub001 isTeamA outNum inNum m).benchB.length = m.benchB.length) ∧
    ((handleConfirmSub001 isTeamA outNum inNum m).rotationA ++
        (handleConfirmSub001 isTeamA outNum inNum m).benchA).Perm
      (m.rotationA ++ m.benchA) ∧
    ((handleConfirmSub001 isTeamA outNum inNum m).rotationB ++
        (handleConfirmSub001 isTeamA outNum inNum m).benchB).Perm
      (m.rotationB ++ m.benchB) := by
  cases isTeamA with
  | true =>
      rcases hfo : m.rotationA.findIdx? (fun p => p.number = outNum) with _ | oi
      · have hres : handleConfirmSub001 true outNum inNum m = m := by
          simp [handleConfirmSub001, hfo]
        rw [hres]
        exact ⟨⟨rfl, rfl, rfl, rfl⟩, List.Perm.refl _, List.Perm.refl _⟩
      rcases hfi : m.benchA.findIdx? (fun p => p.number = inNum) with _ | ii
      · have hres : handleConfirmSub001 true outNum inNum m = m := by
          simp [handleConfirmSub001, hfo, hfi]
        rw [hres]
        exact ⟨⟨rfl, rfl, rfl, rfl⟩, List.Perm.refl _, List.Perm.refl _⟩
      rcases hgo : m.rotationA[oi]? with _ | pOut
      · have hres : handleConfirmSub001 true outNum inNum m = m := by
          simp [handleConfirmSub001, hfo, hfi, hgo]
        rw [hres]
        exact ⟨⟨rfl, rfl, rfl, rfl⟩, List.Perm.refl _, List.Perm.refl _⟩
      rcases hgi : m.benchA[ii]? with _ | pIn
      · have hres : handleConfirmSub001 true outNum inNum m = m := by
          simp [handleConfirmSub001, hfo, hfi, hgo, hgi]
        rw [hres]
        exact ⟨⟨rfl, rfl, rfl, rfl⟩, List.Perm.refl _, List.Perm.refl _⟩
      have hres : handleConfirmSub001 true outNum inNum m =
          { m with
            rotationA := m.rotationA.set oi pIn
            benchA := m.benchA.set ii pOut
            substitutionsA := m.substitutionsA + 1 } := by
        simp [handleConfirmSub001, hfo, hfi, hgo, hgi]
      rw [hres]
      exact ⟨⟨by simp, rfl, by simp, rfl⟩, swap_set_perm hgo hgi, List.Perm.refl _⟩
  | false =>
      rcases hfo : m.rotationB.findIdx? (fun p => p.number = outNum) with _ | oi
      · have hres : handleConfirmSub001 false outNum inNum m = m := by
          simp [handleConfirmSub001, hfo]
        rw [hres]
        exact ⟨⟨rfl, rfl, rfl, rfl⟩, List.Perm.refl _, List.Perm.refl _⟩
      rcases hfi : m.benchB.findIdx? (fun p => p.number = inNum) with _ | ii
      · have hres : handleConfirmSub001 false outNum inNum m = m := by
          simp [handleConfirmSub001, hfo, hfi]
        rw [hres]
        exact ⟨⟨rfl, rfl, rfl, rfl⟩, List.Perm.refl _, List.Perm.refl _⟩
      rcases hgo : m.rotationB[oi]? with _ | pOut
      · have hres : handleConfirmSub001 false outNum inNum m = m := by
          simp [handleConfirmSub001, hfo, hfi, hgo]
        rw [hres]
        exact ⟨⟨rfl, rfl, rfl, rfl⟩, List.Perm.refl _, List.Perm.refl _⟩
      rcases hgi : m.benchB[ii]? with _ | pIn
      · have hres : handleConfirmSub001 false outNum inNum m = m := by
          simp [handleConfirmSub001, hfo, hfi, hgo, hgi]
        rw [hres]
        exact ⟨⟨rfl, rfl, rfl, rfl⟩, List.Perm.refl _, List.Perm.refl _⟩
      have hres : handleConfirmSub001 false outNum inNum m =
          { m with
            rotationB := m.rotationB.set oi pIn
            benchB := m.benchB.set ii pOut
            substitutionsB := m.substitutionsB + 1 } := by
        simp [handleConfirmSub001, hfo, hfi, hgo, hgi]
      rw [hres]
      exact ⟨⟨rfl, by simp, rfl, by simp⟩, List.Perm.refl _, swap_set_perm hgo hgi⟩

theorem handleUpdateRotation001_core (isTeamA : Bool) (team : Team)
    (rotInput : List Int) (m : LiveMatchState) :
    ((rotInput.filterMap
        (fun num => team.players.find? (fun pl => pl.number = num))).length ≠ 6 →
      handleUpdateRotation001 isTeamA team rotInput m = m) ∧
    ((rotInput.filterMap
        (fun num => team.players.find? (fun pl => pl.number = num))).length = 6 →
      ((if isTeamA then (handleUpdateRotation001 isTeamA team rotInput m).rotationA
          else (handleUpdateRotation001 isTeamA team rotInput m).rotationB).length = 6 ∧
       (∀ p, p ∈ (if isTeamA then (handleUpdateRotation001 isTeamA team rotInput m).rotationA
            else (handleUpdateRotation001 isTeamA team rotInput m).rotationB) →
          p ∈ team.players) ∧
       (∀ p, p ∈ team.players →
          (p ∈ (if isTeamA then (handleUpdateRotation001 isTeamA team rotInput m).benchA
              else (handleUpdateRotation001 isTeamA team rotInput m).benchB) ↔
            ¬ ∃ q, q ∈ (if isTeamA
                then (handleUpdateRotation001 isTeamA team rotInput m).rotationA
                else (handleUpdateRotation001 isTeamA team rotInput m).rotationB) ∧
              q.id = p.id)))) := by
  constructor
  · intro hne
    unfold handleUpdateRotation001
    rw [if_pos hne]
  · intro h6
    have hguard : ¬ ((rotInput.filterMap
        (fun num => team.players.find? (fun pl => pl.number = num))).length ≠ 6) := by
      simp [h6]
    have hrot : (if isTeamA then (handleUpdateRotation001 isTeamA team rotInput m).rotationA
        else (handleUpdateRotation001 isTeamA team rotInput m).rotationB)
        = rotInput.filterMap (fun num => team.players.find? (fun pl => pl.number = num)) := by
      cases isTeamA <;>
        · unfold handleUpdateRotation001
          rw [if_neg hguard]
          simp
    have hbench : (if isTeamA then (handleUpdateRotation001 isTeamA team rotInput m).benchA
        else (handleUpdateRotation001 isTeamA team rotInput m).benchB)
        = team.players.filter (fun p =>
            ¬ (rotInput.filterMap
                (fun num => team.players.find? (fun pl => pl.number = num))).any
              (fun r => r.id = p.id)) := by
      cases isTeamA <;>
        · unfold handleUpdateRotation001
          rw [if_neg hguard]
          simp
    refine ⟨by rw [hrot]; exact h6, ?_, ?_⟩
    · intro p hp
      rw [hrot] at hp
      obtain ⟨num, _, hfind⟩ := List.mem_filterMap.mp hp
      exact List.mem_of_find?_eq_some hfind
    · intro p hp
      rw [hbench, hrot, List.mem_filter]
      simp only [hp, true_and, decide_eq_true_eq, List.any_eq_true]

/-- C4 counterexample: `startMatch` of `src/App.tsx` performs no roster
validation (its own comment admits it): with two teams created by the
App's "Crear Equipo" handler — which start with an EMPTY roster — the
published live-match state has rotations of 0 players, not 6.  This
refutes "rotationA and rotationB each contain exactly 6 players in
every reachable live-match state". -/
theorem rotation_six_cex :
    (startMatchApp "f1" (createTeamApp "t1" "Alpha")
        (createTeamApp "t2" "Beta")).rotationA.length = 0 ∧
    (startMatchApp "f1" (createTeamApp "t1" "Alpha")
        (createTeamApp "t2" "Beta")).rotationB.length = 0 ∧
    (startMatchApp "f1" (createTeamApp "t1" "Alpha")
        (createTeamApp "t2" "Beta")).status = "warmup" :=
  ⟨rfl, rfl, rfl⟩

/-- C4 amended: `startMatch` gives each rotation the first
`min 6 roster` players — exactly 6 only when the team's roster has at
least 6 players; a confirmed substitution swaps the rotation player and
the bench player atomically, preserving both list lengths and the
multiset of the team's players (so no player ends up in both rotation
and bench, and none goes missing, whenever that held before); a
confirmed rotation edit is applied only when exactly 6 team players are
matched, every rotation member is a team player, and the bench is
exactly the team players whose id does not appear in the new
rotation. -/
theorem rotation_invariant_amended (fid : String) (tA tB : Team) (isTeamA : Bool)
    (outNum inNum : Int) (team : Team) (rotInput : List Int) (m : LiveMatchState) :
    (startMatchApp fid tA tB).rotationA.length = min 6 tA.players.length ∧
    (startMatchApp fid tA tB).rotationB.length = min 6 tB.players.length ∧
    (6 ≤ tA.players.length → (startMatchApp fid tA tB).rotationA.length = 6) ∧
    (6 ≤ tB.players.length → (startMatchApp fid tA tB).rotationB.length = 6) ∧
    ((handleConfirmSub001 isTeamA outNum inNum m).rotationA.length = m.rotationA.length ∧
     (handleConfirmSub001 isTeamA outNum inNum m).rotationB.length = m.rotationB.length ∧
     (handleConfirmSub001 isTeamA outNum inNum m).benchA.length = m.benchA.length ∧
     (handleConfirmSub001 isTeamA outNum inNum m).benchB.length = m.benchB.length) ∧
    ((handleConfirmSub001 isTeamA outNum inNum m).rotationA ++
        (handleConfirmSub001 isTeamA outNum inNum m).benchA).Perm
      (m.rotationA ++ m.benchA) ∧
    ((handleConfirmSub001 isTeamA outNum inNum m).rotationB ++
        (handleConfirmSub001 isTeamA outNum inNum m).benchB).Perm
      (m.rotationB ++ m.benchB) ∧
    (∀ p, p ∈ (handleConfirmSub001 isTeamA outNum inNum m).rotationA ++
          (handleConfirmSub001 isTeamA outNum inNum m).benchA ↔
        p ∈ m.rotationA ++ m.benchA) ∧
    ((m.rotationA ++ m.benchA).Nodup →
      ((handleConfirmSub001 isTeamA outNum inNum m).rotationA ++
        (handleConfirmSub001 isTeamA outNum inNum m).benchA).Nodup) ∧
    (∀ p, p ∈ (handleConfirmSub001 isTeamA outNum inNum m).rotationB ++
          (handleConfirmSub001 isTeamA outNum inNum m).benchB ↔
        p ∈ m.rotationB ++ m.benchB) ∧
    ((m.rotationB ++ m.benchB).Nodup →
      ((handleConfirmSub001 isTeamA outNum inNum m).rotationB ++
        (handleConfirmSub001 isTeamA outNum inNum m).benchB).Nodup) ∧
    ((rotInput.filterMap
        (fun num => team.players.find? (fun pl => pl.number = num))).length ≠ 6 →
      handleUpdateRotation001 isTeamA team rotInput m = m) ∧
    ((rotInput.filterMap
        (fun num => team.players.find? (fun pl => pl.number = num))).length = 6 →
      ((if isTeamA then (handleUpdateRotation001 isTeamA team rotInput m).rotationA
          else (handleUpdateRotation001 isTeamA team rotInput m).rotationB).length = 6 ∧
       (∀ p, p ∈ (if isTeamA then (handleUpdateRotation001 isTeamA team rotInput m).rotationA
            else (handleUpdateRotation001 isTeamA team rotInput m).rotationB) →
          p ∈ team.players) ∧
       (∀ p, p ∈ team.players →
          (p ∈ (if isTeamA then (handleUpdateRotation001 isTeamA team rotInput m).benchA
              else (handleUpdateRotation001 isTeamA team rotInput m).benchB) ↔
            ¬ ∃ q, q ∈ (if isTeamA
                then (handleUpdateRotation001 isTeamA team rotInput m).rotationA
                else (handleUpdateRotation001 isTeamA team rotInput m).rotationB) ∧
              q.id = p.id)))) := by
  obtain ⟨hlen, hpa, hpb⟩ := handleConfirmSub001_core isTeamA outNum inNum m
  obtain ⟨hno, hyes⟩ := handleUpdateRotation001_core isTeamA team rotInput m
  refine ⟨List.length_take 6 tA.players, List.length_take 6 tB.players, ?_, ?_,
    hlen, hpa, hpb, fun p => hpa.mem_iff, fun hn => hpa.nodup_iff.mpr hn,
    fun p => hpb.mem_iff, fun hn => hpb.nodup_iff.mpr hn, hno, hyes⟩
  · intro h6
    show (tA.players.take 6).length = 6
    rw [List.length_take]
    omega
  · intro h6
    show (tB.players.take 6).length = 6
    rw [List.length_take]
    omega

/-- C4 witness. -/
theorem rotation_invariant_amended_witness :
    6 ≤ sampleTeamA.players.length ∧
    (startMatchApp "f1" sampleTeamA sampleTeamB).rotationA.length = 6 ∧
    (sampleMatch.rotationA ++ sampleMatch.benchA).Nodup ∧
    ((handleConfirmSub001 true 1 7 sampleMatch).rotationA ++
      (handleConfirmSub001 true 1 7 sampleMatch).benchA).Nodup ∧
    (([1, 2, 3, 4, 5, 6] : List Int).filterMap
        (fun num => sampleTeamA.players.find? (fun pl => pl.number = num))).length = 6 ∧
    (if true then (handleUpdateRotation001 true sampleTeamA [1, 2, 3, 4, 5, 6]
          sampleMatch).rotationA
      else (handleUpdateRotation001 true sampleTeamA [1, 2, 3, 4, 5, 6]
          sampleMatch).rotationB).length = 6 := by
  have h := rotation_invariant_amended "f1" sampleTeamA sampleTeamB true 1 7 sampleTeamA
    [1, 2, 3, 4, 5, 6] sampleMatch
  exact ⟨by decide, h.2.2.1 (by decide), by decide,
    h.2.2.2.2.2.2.2.2.1 (by decide), by decide,
    (h.2.2.2.2.2.2.2.2.2.2.2.2 (by decide)).1⟩
